import Mathlib

/-!
# gcp-file-processing: a shallow embedding of `index.js`

The script reads a CSV manifest, downloads each object to `tmp/<id>.<ext>`,
scans `tmp`, and appends one SQL `UPDATE` per accepted entry to `result.txt`.

Modelling conventions

* JavaScript strings are Lean `String`s.  The only string operations the
  script uses are concatenation, `join("")` and `split` on the one-character
  separators `/`, `.` and line feed, all of which act identically on UTF-16
  code units and on code points.
* The outside world is a parameter: the resolved value of `fs.readdir("tmp")`
  (`tmp : List String`), the outcome of `loadImage` for every path
  (`none` is a rejected promise), the outcome of each bucket download, and
  the prior content of `result.txt`.
* Effects are recorded in explicit logs (`appendLog`, `decodeLog`, ...), in
  chronological order.
* `process.stdout.write` progress lines are cosmetic and are not modelled;
  the Verifier's `console.log` line is.
* `fs.readdir` and `fs.appendFile` are taken to resolve.
-/

namespace GcpFileProcessing

/-! ## String primitives -/

/-- The pieces of `cs` between occurrences of `sep`: `String.prototype.split`
with a one-character separator, on character lists. -/
def splitChars (sep : Char) : List Char → List (List Char)
  | [] => [[]]
  | c :: cs =>
    if c = sep then [] :: splitChars sep cs
    else
      match splitChars sep cs with
      | [] => [[c]]
      | piece :: pieces => (c :: piece) :: pieces

/-- The JavaScript `s.split(sep)` for a separator of length one. -/
def split (s : String) (sep : Char) : List String :=
  (splitChars sep s.data).map String.mk

/-- The text a template literal produces for an integer-valued number. -/
def render (n : Int) : String := toString n

/-! ## Constants and records -/

/-- The output file where the SQL queries are written (only its content is
modelled). -/
def OUTPUT_FILE : String := "./result.txt"

/-- One row of the parsed manifest (`FileInfo` in the source). -/
structure FileInfo where
  id : String
  gcloudPath : String
  fileExtension : String
  deriving DecidableEq, Repr

/-- The arguments of one `storage.bucket(..).file(gcloudPath).download` call. -/
structure DownloadCall where
  gcloudPath : String
  destination : String
  deriving DecidableEq, Repr

/-- The destination path that `download` builds for a manifest row. -/
def destinationDest (file : FileInfo) : String :=
  "tmp/" ++ file.id ++ "." ++ file.fileExtension

/-- The download request issued for a manifest row. -/
def callOf (file : FileInfo) : DownloadCall :=
  ⟨file.gcloudPath, destinationDest file⟩

/-! ## download -/

/-- What `download` did: the calls it issued, in order, and how it ended
(`none` when it returned, `some e` when it threw `e`). -/
structure DownloadOutcome where
  issued : List DownloadCall
  error : Option String
  deriving DecidableEq, Repr

/-- The loop of `download`, from the state in which `issued` calls have
already been made.  `bucket n call` is the outcome of the call issued after
`n` earlier ones: `none` when it resolves, `some e` when it rejects with `e`.
A rejected `await` throws out of the loop. -/
def downloadFrom (bucket : Nat → DownloadCall → Option String) :
    List DownloadCall → List FileInfo → DownloadOutcome
  | issued, [] => ⟨issued, none⟩
  | issued, file :: rest =>
    match bucket issued.length (callOf file) with
    | some e => ⟨issued ++ [callOf file], some e⟩
    | none => downloadFrom bucket (issued ++ [callOf file]) rest

/-- The function `download(data)`. -/
def download (bucket : Nat → DownloadCall → Option String) (data : List FileInfo) :
    DownloadOutcome :=
  downloadFrom bucket [] data

/-! ## generateSQL -/

/-- The statement pushed onto `results` for one entry. -/
def statement (width height : Int) (id : String) : String :=
  "UPDATE \"CustomFile\" SET \"metadata\" = \x27\x7b\"width\": " ++ render width ++
    ", \"height\": " ++ render height ++ "\x7d\x27::jsonb WHERE id = \x27" ++ id ++ "\x27;\n"

/-- The expression `files[i].split("/")[1].split(".")[0]`.  When the path has
no second `/`-piece the inner `.split` is called on `undefined` and throws;
the outer index can yield `undefined`, modelled as `none`. -/
def deriveId (path : String) : Except String (Option String) :=
  match (split path '/')[1]? with
  | none => .error "TypeError: Cannot read properties of undefined (reading \x27split\x27)"
  | some name => .ok (split name '.')[0]?

/-- The mutable state of `generateSQL` together with its effect logs. -/
structure GenState where
  /-- The in-memory array `results`. -/
  results : List String
  /-- The content of the output file. -/
  outputFile : String
  /-- The buffers handed to `fs.appendFile`, one per call. -/
  appendLog : List (List String)
  /-- The paths handed to `loadImage`, one per call. -/
  decodeLog : List String
  /-- The paths reported by `console.error("Invalid id:", ..)`. -/
  invalidLog : List String
  /-- The length of `results` after each of its mutations. -/
  bufferHistory : List Nat
  deriving DecidableEq, Repr

/-- The call `fs.appendFile(OUTPUT_FILE, results.join(""))`. -/
def appendFile (st : GenState) : GenState :=
  { st with
    outputFile := st.outputFile ++ String.join st.results
    appendLog := st.appendLog ++ [st.results] }

/-- The call `results.push(stmt)`. -/
def push (st : GenState) (stmt : String) : GenState :=
  { st with
    results := st.results ++ [stmt]
    bufferHistory := st.bufferHistory ++ [st.results.length + 1] }

/-- The assignment `results.length = 0`. -/
def clear (st : GenState) : GenState :=
  { st with results := [], bufferHistory := st.bufferHistory ++ [0] }

/-- The tail of the loop body: write to the file every 200 lines. -/
def flushIfFull (st : GenState) : GenState :=
  if st.results.length % 200 = 0 then clear (appendFile st) else st

/-- One iteration of the `for` loop of `generateSQL` on `files[i] = path`. -/
def loopBody (loadImage : String → Option (Int × Int)) (st : GenState) (path : String) :
    Except String GenState :=
  let dims := (loadImage path).getD (-1, -1)
  let st := { st with decodeLog := st.decodeLog ++ [path] }
  match deriveId path with
  | .error e => .error e
  | .ok id =>
    if id = none ∨ id = some "" then
      .ok { st with invalidLog := st.invalidLog ++ [path] }
    else
      .ok (flushIfFull (push st (statement dims.1 dims.2 (id.getD ""))))

/-- The `for` loop of `generateSQL` over the remaining paths. -/
def loop (loadImage : String → Option (Int × Int)) :
    GenState → List String → Except String GenState
  | st, [] => .ok st
  | st, path :: rest =>
    match loopBody loadImage st path with
    | .error e => .error e
    | .ok st => loop loadImage st rest

/-- The state in which `generateSQL` enters its loop. -/
def initialState (outputFile : String) : GenState :=
  ⟨[], outputFile, [], [], [], []⟩

/-- The function `generateSQL()`: `tmp` is the resolved directory listing and
`outputFile` the prior content of the output file.  The loop starts at index
1; the result is the final state and the returned `files.length`. -/
def generateSQL (loadImage : String → Option (Int × Int)) (tmp : List String)
    (outputFile : String) : Except String (GenState × Nat) :=
  let files := tmp.map (fun file => "tmp/" ++ file)
  match loop loadImage (initialState outputFile) (files.drop 1) with
  | .error e => .error e
  | .ok st => .ok (appendFile st, files.length)

/-! ## main -/

/-- The Verifier's `actualCount`: `content.split("\n").length`. -/
def countLines (content : String) : Nat := (split content '\n').length

/-- The two numbers the Verifier prints: `actualCount - 1` and
`expectedCount - 1`. -/
structure Report where
  totalLines : Int
  shouldBe : Int
  deriving DecidableEq, Repr

/-- The line the Verifier logs. -/
def Report.text (r : Report) : String :=
  "Total lines: " ++ render r.totalLines ++ ". Should be: " ++ render r.shouldBe ++ "."

/-- Everything observable about one run of `main`. -/
structure MainOutcome where
  /-- The download calls issued, in order. -/
  issued : List DownloadCall
  /-- The final state of `generateSQL`, when it ran. -/
  gen : Option GenState
  /-- The content of the output file when `main` ends. -/
  outputFile : String
  /-- The Verifier's report, when it was reached. -/
  report : Option Report
  /-- The error `main` rejected with, if any. -/
  error : Option String
  deriving DecidableEq, Repr

/-- The function `main()`.  `manifest` is the outcome of `prepare()`,
`readdir issued` the listing of `tmp` found after the downloads `issued` have
completed, and `outputFile` the prior content of the output file. -/
def main (manifest : Except String (List FileInfo))
    (bucket : Nat → DownloadCall → Option String)
    (readdir : List DownloadCall → List String)
    (loadImage : String → Option (Int × Int)) (outputFile : String) : MainOutcome :=
  match manifest with
  | .error e => ⟨[], none, outputFile, none, some e⟩
  | .ok data =>
    let d := download bucket data
    match d.error with
    | some e => ⟨d.issued, none, outputFile, none, some e⟩
    | none =>
      match generateSQL loadImage (readdir d.issued) outputFile with
      | .error e => ⟨d.issued, none, outputFile, none, some e⟩
      | .ok (st, expectedCount) =>
        let actualCount := countLines st.outputFile
        ⟨d.issued, some st, st.outputFile,
          some ⟨(actualCount : Int) - 1, (expectedCount : Int) - 1⟩, none⟩

/-! ## The specification's vocabulary -/

/-- The id that `generateSQL` derives for the directory entry `name`, with
`undefined` read as the empty string. -/
def derivedId (name : String) : String :=
  match deriveId ("tmp/" ++ name) with
  | .ok (some id) => id
  | _ => ""

/-- The accepted entries of a listing: every entry other than the first whose
derived id is non-empty, in enumeration order. -/
def accepted (tmp : List String) : List String :=
  (tmp.drop 1).filter (fun name => derivedId name ≠ "")

/-- The statement the specification asks for the entry `name`: the decoder's
dimensions when the decode succeeds, the sentinel pair when it fails. -/
def statementOf (loadImage : String → Option (Int × Int)) (name : String) : String :=
  match loadImage ("tmp/" ++ name) with
  | some (w, h) => statement w h (derivedId name)
  | none => statement (-1) (-1) (derivedId name)

/-- The number of line feeds inside the derived ids of the accepted entries. -/
def idNewlines (tmp : List String) : Nat :=
  ((accepted tmp).map (fun name => (derivedId name).data.count '\n')).sum

/-- The lengths `results` goes through while `m` statements are pushed onto
a buffer that is emptied whenever it reaches 200: `1, .., 199, 200, 0, 1, ..`. -/
def expectedHistory : Nat → List Nat
  | 0 => []
  | m + 1 => expectedHistory m ++ (if (m + 1) % 200 = 0 then [200, 0] else [(m + 1) % 200])

/-- The loop invariant of `generateSQL`, for prior file content `c` and the
statements `stmts` pushed so far. -/
structure LoopInv (c : String) (stmts : List String) (st : GenState) : Prop where
  buffer_lt : st.results.length < 200
  chunk_len : ∀ chunk ∈ st.appendLog, chunk.length = 200
  history_le : ∀ n ∈ st.bufferHistory, n ≤ 200
  flushes : st.bufferHistory.count 200 = st.appendLog.length
  clears : st.bufferHistory.count 0 = st.appendLog.length
  contents : st.appendLog.flatten ++ st.results = stmts
  file : st.outputFile = c ++ String.join st.appendLog.flatten
  history : st.bufferHistory = expectedHistory stmts.length

/-! ## Facts about the string primitives -/

theorem splitChars_ne_nil (sep : Char) (cs : List Char) : splitChars sep cs ≠ [] := by
  cases cs with
  | nil => simp [splitChars]
  | cons c cs =>
    simp only [splitChars]
    split
    · simp
    · split <;> simp

theorem splitChars_length (sep : Char) (cs : List Char) :
    (splitChars sep cs).length = cs.count sep + 1 := by
  induction cs with
  | nil => simp [splitChars]
  | cons c cs ih =>
    simp only [splitChars]
    by_cases h : c = sep
    · subst h
      simp [ih]
    · rw [if_neg h, List.count_cons_of_ne (Ne.symm h)]
      cases hs : splitChars sep cs with
      | nil => exact absurd hs (splitChars_ne_nil sep cs)
      | cons p ps => rw [hs] at ih; simpa using ih

theorem splitChars_head (sep : Char) (cs : List Char) :
    (splitChars sep cs)[0]? = some (cs.takeWhile (fun c => c != sep)) := by
  induction cs with
  | nil => simp [splitChars]
  | cons c cs ih =>
    simp only [splitChars]
    by_cases h : c = sep
    · subst h
      simp
    · rw [if_neg h]
      cases hs : splitChars sep cs with
      | nil => exact absurd hs (splitChars_ne_nil sep cs)
      | cons p ps =>
        rw [hs] at ih
        simp at ih
        have hb : (c != sep) = true := by simpa using h
        simp [List.takeWhile, hb, ih]

theorem split_length (s : String) (sep : Char) :
    (split s sep).length = s.data.count sep + 1 := by
  simp [split, splitChars_length]

theorem split_head (s : String) (sep : Char) :
    (split s sep)[0]? = some (String.mk (s.data.takeWhile (fun c => c != sep))) := by
  simp [split, splitChars_head]

theorem digitChar_ne_newline (d : Nat) : Nat.digitChar d ≠ '\n' := by
  rcases Nat.lt_or_ge d 16 with h | h
  · interval_cases d <;> decide
  · have e : Nat.digitChar d = '*' := by
      unfold Nat.digitChar
      iterate 16 rw [if_neg (by omega)]
    rw [e]
    decide

theorem toDigitsCore_count (base fuel n : Nat) (acc : List Char) :
    (Nat.toDigitsCore base fuel n acc).count '\n' = acc.count '\n' := by
  induction fuel generalizing n acc with
  | zero => simp [Nat.toDigitsCore]
  | succ fuel ih =>
    simp only [Nat.toDigitsCore]
    split
    · rw [List.count_cons_of_ne (Ne.symm (digitChar_ne_newline _))]
    · rw [ih, List.count_cons_of_ne (Ne.symm (digitChar_ne_newline _))]

theorem render_count (n : Int) : (render n).data.count '\n' = 0 := by
  cases n with
  | ofNat m =>
    show (Nat.repr m).data.count '\n' = 0
    simp [Nat.repr, Nat.toDigits, List.asString, toDigitsCore_count]
  | negSucc m =>
    show ("-" ++ Nat.repr (m + 1)).data.count '\n' = 0
    simp [Nat.repr, Nat.toDigits, List.asString, toDigitsCore_count]

theorem statement_count (w h : Int) (id : String) :
    (statement w h id).data.count '\n' = id.data.count '\n' + 1 := by
  simp only [statement, String.data_append, List.count_append, render_count]
  have e1 : ("UPDATE \"CustomFile\" SET \"metadata\" = \x27\x7b\"width\": " : String).data.count '\n' = 0 := by decide
  have e2 : (", \"height\": " : String).data.count '\n' = 0 := by decide
  have e3 : ("\x7d\x27::jsonb WHERE id = \x27" : String).data.count '\n' = 0 := by decide
  have e4 : ("\x27;\n" : String).data.count '\n' = 1 := by decide
  rw [e1, e2, e3, e4]
  omega

/-! ## Facts about `generateSQL` -/

theorem join_append (a b : List String) :
    String.join (a ++ b) = String.join a ++ String.join b := by
  apply String.ext
  simp [String.data_join]

theorem deriveId_entry (name : String) :
    deriveId ("tmp/" ++ name) = .ok (some (String.mk
      ((name.data.takeWhile (fun c => c != '/')).takeWhile (fun c => c != '.')))) := by
  have h0 := splitChars_head '/' name.data
  have h1 : (split ("tmp/" ++ name) '/')[1]? =
      some (String.mk (name.data.takeWhile (fun c => c != '/'))) := by
    have hd : ("tmp/" ++ name).data = 't' :: 'm' :: 'p' :: '/' :: name.data := rfl
    cases hs : splitChars '/' name.data with
    | nil => exact absurd hs (splitChars_ne_nil _ _)
    | cons p ps =>
      rw [hs] at h0
      simp at h0
      simp [split, hd, splitChars, hs, h0]
  simp only [deriveId, h1]
  rw [split_head]

theorem derivedId_eq (name : String) :
    derivedId name = String.mk
      ((name.data.takeWhile (fun c => c != '/')).takeWhile (fun c => c != '.')) := by
  simp [derivedId, deriveId_entry]

theorem deriveId_derivedId (name : String) :
    deriveId ("tmp/" ++ name) = .ok (some (derivedId name)) := by
  rw [derivedId_eq, deriveId_entry]

theorem loopBody_entry (loadImage : String → Option (Int × Int)) (st : GenState)
    (name : String) :
    loopBody loadImage st ("tmp/" ++ name) = .ok
      (if derivedId name = "" then
        { st with
          decodeLog := st.decodeLog ++ ["tmp/" ++ name]
          invalidLog := st.invalidLog ++ ["tmp/" ++ name] }
      else
        flushIfFull (push { st with decodeLog := st.decodeLog ++ ["tmp/" ++ name] }
          (statementOf loadImage name))) := by
  simp only [loopBody, deriveId_derivedId]
  by_cases h : derivedId name = ""
  · simp [h]
  · simp only [Option.some.injEq, h, or_false, if_false, reduceCtorEq, false_or, Option.getD_some]
    congr 3
    unfold statementOf
    cases loadImage ("tmp/" ++ name) with
    | none => rfl
    | some d => rfl

theorem LoopInv.initial (c : String) : LoopInv c [] (initialState c) := by
  constructor <;> simp [initialState, String.join, expectedHistory]

theorem flatten_length_of_chunks (log : List (List String))
    (h : ∀ chunk ∈ log, chunk.length = 200) : log.flatten.length = 200 * log.length := by
  induction log with
  | nil => simp
  | cons a l ih =>
    have ha : a.length = 200 := h a (by simp)
    have hl := ih (fun chunk hc => h chunk (by simp [hc]))
    simp [ha, hl]
    omega

theorem LoopInv.size {c : String} {stmts : List String} {st : GenState}
    (h : LoopInv c stmts st) :
    stmts.length = 200 * st.appendLog.length + st.results.length := by
  rw [← h.contents, List.length_append, flatten_length_of_chunks _ h.chunk_len]

theorem LoopInv.step {c : String} {stmts : List String} {st : GenState}
    (h : LoopInv c stmts st) (s : String) :
    LoopInv c (stmts ++ [s]) (flushIfFull (push st s)) := by
  have hsize := h.size
  obtain ⟨h1, h2, h3, h4, h5, h6, h7, h8⟩ := h
  unfold flushIfFull
  by_cases hf : (push st s).results.length % 200 = 0
  · rw [if_pos hf]
    have hlen : st.results.length + 1 = 200 := by
      simp [push] at hf
      omega
    constructor
    · simp [clear]
    · intro chunk hc
      simp [clear, appendFile, push] at hc
      rcases hc with hc | hc
      · exact h2 chunk hc
      · subst hc
        simpa using hlen
    · intro n hn
      simp [clear, appendFile, push] at hn
      rcases hn with hn | hn | hn
      · exact h3 n hn
      · omega
      · omega
    · simp [clear, appendFile, push, List.count_append, h4, hlen]
    · simp [clear, appendFile, push, List.count_append, h5, hlen]
    · simp [clear, appendFile, push, ← h6]
    · simp [clear, appendFile, push, h7, join_append, String.append_assoc]
    · have hm : (stmts.length + 1) % 200 = 0 := by omega
      simp [clear, appendFile, push, h8, expectedHistory, hm, hlen]
  · rw [if_neg hf]
    have hlen : st.results.length + 1 < 200 := by
      simp [push] at hf
      omega
    constructor
    · simpa [push] using hlen
    · simpa [push] using h2
    · intro n hn
      simp [push] at hn
      rcases hn with hn | hn
      · exact h3 n hn
      · omega
    · have h0 : List.count 200 [st.results.length + 1] = 0 := by
        rw [List.count_eq_zero]
        simp
        omega
      simp [push, List.count_append, h4, h0]
    · simp [push, List.count_append, h5]
    · simp [push, ← h6]
    · simpa [push] using h7
    · have hm : ¬ ((stmts.length + 1) % 200 = 0) := by omega
      have hr : (stmts.length + 1) % 200 = st.results.length + 1 := by omega
      simp [push, h8, expectedHistory, hm, hr]

theorem LoopInv.skip {c : String} {stmts : List String} {st : GenState}
    (h : LoopInv c stmts st) (dl il : List String) :
    LoopInv c stmts { st with decodeLog := dl, invalidLog := il } :=
  ⟨h.1, h.2, h.3, h.4, h.5, h.6, h.7, h.8⟩

theorem loop_entries (loadImage : String → Option (Int × Int)) (names : List String) :
    ∀ (c : String) (stmts : List String) (st : GenState), LoopInv c stmts st →
    ∃ st', loop loadImage st (names.map (fun file => "tmp/" ++ file)) = .ok st' ∧
      LoopInv c (stmts ++ (names.filter (fun name => derivedId name ≠ "")).map
        (statementOf loadImage)) st' ∧
      st'.decodeLog = st.decodeLog ++ names.map (fun file => "tmp/" ++ file) ∧
      st'.invalidLog = st.invalidLog ++
        (names.filter (fun name => derivedId name = "")).map (fun file => "tmp/" ++ file) := by
  induction names with
  | nil =>
    intro c stmts st h
    exact ⟨st, rfl, by simpa using h, by simp, by simp⟩
  | cons name rest ih =>
    intro c stmts st h
    simp only [List.map_cons, loop, loopBody_entry]
    by_cases hid : derivedId name = ""
    · rw [if_pos hid]
      obtain ⟨st', e1, e2, e3, e4⟩ := ih c stmts _
        (h.skip (st.decodeLog ++ ["tmp/" ++ name]) (st.invalidLog ++ ["tmp/" ++ name]))
      refine ⟨st', e1, ?_, ?_, ?_⟩
      · simpa [List.filter_cons, hid] using e2
      · simpa using e3
      · simpa [List.filter_cons, hid] using e4
    · rw [if_neg hid]
      obtain ⟨st', e1, e2, e3, e4⟩ := ih c (stmts ++ [statementOf loadImage name]) _
        ((h.skip (st.decodeLog ++ ["tmp/" ++ name]) st.invalidLog).step
          (statementOf loadImage name))
      refine ⟨st', e1, ?_, ?_, ?_⟩
      · simpa [List.filter_cons, hid] using e2
      · rw [e3]
        unfold flushIfFull
        split <;> simp [clear, appendFile, push]
      · rw [e4]
        unfold flushIfFull
        split <;> simp [clear, appendFile, push, List.filter_cons, hid]

theorem generateSQL_run (loadImage : String → Option (Int × Int)) (tmp : List String)
    (c : String) :
    ∃ st, generateSQL loadImage tmp c = .ok (appendFile st, tmp.length) ∧
      LoopInv c ((accepted tmp).map (statementOf loadImage)) st ∧
      st.decodeLog = (tmp.drop 1).map (fun file => "tmp/" ++ file) ∧
      st.invalidLog = ((tmp.drop 1).filter (fun name => derivedId name = "")).map
        (fun file => "tmp/" ++ file) := by
  obtain ⟨st, e1, e2, e3, e4⟩ :=
    loop_entries loadImage (tmp.drop 1) c [] (initialState c) (LoopInv.initial c)
  refine ⟨st, ?_, ?_, ?_, ?_⟩
  · simp only [generateSQL, ← List.map_drop, e1, List.length_map]
  · simpa [accepted] using e2
  · simpa [initialState] using e3
  · simpa [initialState] using e4

/-! ## The final state -/

theorem count_join (a : Char) (l : List String) :
    (String.join l).data.count a = (l.map (fun s => s.data.count a)).sum := by
  rw [String.data_join]
  induction l with
  | nil => simp
  | cons s l ih => simp [List.count_append, ih]

theorem countLines_eq (s : String) : countLines s = s.data.count '\n' + 1 := by
  simp [countLines, split_length]

theorem statementOf_count (loadImage : String → Option (Int × Int)) (name : String) :
    (statementOf loadImage name).data.count '\n' = (derivedId name).data.count '\n' + 1 := by
  unfold statementOf
  split <;> exact statement_count _ _ _

theorem statements_count (loadImage : String → Option (Int × Int)) (names : List String) :
    (String.join (names.map (statementOf loadImage))).data.count '\n' =
      names.length + (names.map (fun name => (derivedId name).data.count '\n')).sum := by
  rw [count_join]
  induction names with
  | nil => simp
  | cons n l ih =>
    simp only [List.map_cons, List.sum_cons, List.length_cons, statementOf_count]
    simp only [List.map_map] at ih ⊢
    omega

theorem LoopInv.final_file {c : String} {stmts : List String} {st : GenState}
    (h : LoopInv c stmts st) : (appendFile st).outputFile = c ++ String.join stmts := by
  simp [appendFile, h.file, ← h.contents, join_append, String.append_assoc]

theorem LoopInv.final_flatten {c : String} {stmts : List String} {st : GenState}
    (h : LoopInv c stmts st) : (appendFile st).appendLog.flatten = stmts := by
  simp [appendFile, h.contents]

theorem LoopInv.final_length {c : String} {stmts : List String} {st : GenState}
    (h : LoopInv c stmts st) : (appendFile st).appendLog.length = stmts.length / 200 + 1 := by
  have h1 := h.size
  have h2 := h.buffer_lt
  simp only [appendFile, List.length_append, List.length_singleton]
  omega

theorem expectedHistory_le (m : Nat) : ∀ n ∈ expectedHistory m, n ≤ 200 := by
  induction m with
  | zero => simp [expectedHistory]
  | succ m ih =>
    intro n hn
    simp only [expectedHistory, List.mem_append] at hn
    rcases hn with hn | hn
    · exact ih n hn
    · split at hn
      · simp at hn
        omega
      · simp at hn
        omega

/-! ## Facts about positions, `download` and `main` -/

theorem accepted_position (tmp : List String) (j : Nat) (name : String) (hj : 0 < j)
    (h : tmp[j]? = some name) (hid : derivedId name ≠ "") :
    (accepted tmp)[(accepted (tmp.take j)).length]? = some name := by
  have hlt : j < tmp.length := by
    rcases Nat.lt_or_ge j tmp.length with hl | hl
    · exact hl
    · rw [List.getElem?_eq_none hl] at h
      cases h
  have hget : tmp[j] = name := by
    rw [List.getElem?_eq_getElem hlt] at h
    exact Option.some.inj h
  have hsplit : tmp = tmp.take j ++ name :: tmp.drop (j + 1) := by
    rw [← hget, List.getElem_cons_drop tmp j hlt, List.take_append_drop]
  have htake : (tmp.take j).length = j := by
    rw [List.length_take]
    omega
  have hdrop : tmp.drop 1 = (tmp.take j).drop 1 ++ name :: tmp.drop (j + 1) := by
    conv_lhs => rw [hsplit]
    rw [List.drop_append_of_le_length (by omega)]
  have hacc : accepted tmp = accepted (tmp.take j) ++
      name :: (tmp.drop (j + 1)).filter (fun name => derivedId name ≠ "") := by
    unfold accepted
    rw [hdrop, List.filter_append, List.filter_cons]
    simp [hid]
  rw [hacc, List.getElem?_append_right (Nat.le_refl _)]
  simp

theorem written_at {loadImage : String → Option (Int × Int)} {tmp : List String}
    {c : String} {st : GenState}
    (inv : LoopInv c ((accepted tmp).map (statementOf loadImage)) st)
    (j : Nat) (name : String) (hj : 0 < j) (h : tmp[j]? = some name)
    (hid : derivedId name ≠ "") :
    (appendFile st).appendLog.flatten[(accepted (tmp.take j)).length]? =
      some (statementOf loadImage name) := by
  rw [inv.final_flatten, List.getElem?_map, accepted_position tmp j name hj h hid]
  rfl

theorem derivedId_of_deriveId {name id : String}
    (h : deriveId ("tmp/" ++ name) = .ok (some id)) : derivedId name = id := by
  simp [derivedId, h]

theorem downloadFrom_first_failure (bucket : Nat → DownloadCall → Option String)
    (data : List FileInfo) :
    ∀ (issued : List DownloadCall) (k : Nat) (file : FileInfo) (e : String),
      data[k]? = some file →
      bucket (issued.length + k) (callOf file) = some e →
      (∀ (j : Nat) (f : FileInfo), j < k → data[j]? = some f →
        bucket (issued.length + j) (callOf f) = none) →
      downloadFrom bucket issued data = ⟨issued ++ (data.take (k + 1)).map callOf, some e⟩ := by
  induction data with
  | nil =>
    intro issued k file e hk
    simp at hk
  | cons d rest ih =>
    intro issued k file e hk hfail hok
    cases k with
    | zero =>
      simp at hk
      subst hk
      simp only [Nat.add_zero] at hfail
      simp [downloadFrom, hfail]
    | succ k =>
      have h0 : bucket issued.length (callOf d) = none := by
        simpa using hok 0 d (Nat.succ_pos k) (by simp)
      simp only [List.getElem?_cons_succ] at hk
      simp only [downloadFrom, h0]
      rw [ih (issued ++ [callOf d]) k file e hk]
      · simp
      · rw [← hfail]
        simp
        congr 1
        omega
      · intro j f hj hf
        have := hok (j + 1) f (by omega) (by simpa using hf)
        rw [← this]
        simp
        congr 1
        omega

theorem main_report (data : List FileInfo) (bucket : Nat → DownloadCall → Option String)
    (readdir : List DownloadCall → List String) (loadImage : String → Option (Int × Int))
    (c : String) (st : GenState) (n : Nat)
    (hd : (download bucket data).error = none)
    (hg : generateSQL loadImage (readdir (download bucket data).issued) c = .ok (st, n)) :
    main (.ok data) bucket readdir loadImage c =
      ⟨(download bucket data).issued, some st, st.outputFile,
        some ⟨(countLines st.outputFile : Int) - 1, (n : Int) - 1⟩, none⟩ := by
  simp only [main, hd, hg]

theorem accepted_remove (before after : List String) (name : String)
    (hfirst : before ≠ []) (hid : derivedId name = "") :
    accepted (before ++ name :: after) = accepted (before ++ after) := by
  cases before with
  | nil => exact absurd rfl hfirst
  | cons b bs => simp [accepted, List.filter_append, List.filter_cons, hid]

theorem loop_congr (f g : String → Option (Int × Int)) (paths : List String) :
    ∀ st : GenState, (∀ p ∈ paths, g p = f p) → loop g st paths = loop f st paths := by
  induction paths with
  | nil => intro st _; rfl
  | cons p rest ih =>
    intro st h
    have hp : g p = f p := h p (by simp)
    have hb : loopBody g st p = loopBody f st p := by simp only [loopBody, hp]
    simp only [loop, hb]
    cases loopBody f st p with
    | error e => rfl
    | ok st1 => exact ih st1 (fun q hq => h q (by simp [hq]))

/-! ## The claims -/

/-- C1 (amended): for every prior content `c`, listing and decoder, `generateSQL`
returns, and the output file is then `c` followed by one statement per accepted
entry, in enumeration order, each ending in a line feed.  The Verifier's line
count grows by the number `M` of accepted entries plus the number of line feeds
inside their ids (so by exactly `M` when no accepted id contains one), and a
second run on the same listing appends a second block and doubles the growth. -/
theorem generateSQL_appends_statements (loadImage : String → Option (Int × Int))
    (tmp : List String) (c : String) :
    ∃ st, generateSQL loadImage tmp c = .ok (st, tmp.length) ∧
      st.outputFile = c ++ String.join ((accepted tmp).map (statementOf loadImage)) ∧
      (∀ name, ∃ body, statementOf loadImage name = body ++ "\n") ∧
      countLines st.outputFile = countLines c + (accepted tmp).length + idNewlines tmp ∧
      ∀ loadImage2 : String → Option (Int × Int),
        ∃ st2, generateSQL loadImage2 tmp st.outputFile = .ok (st2, tmp.length) ∧
          st2.outputFile = c ++ String.join ((accepted tmp).map (statementOf loadImage)) ++
            String.join ((accepted tmp).map (statementOf loadImage2)) ∧
          (countLines st2.outputFile : Int) - countLines c =
            2 * ((countLines st.outputFile : Int) - countLines c) := by
  obtain ⟨st, e, inv, -, -⟩ := generateSQL_run loadImage tmp c
  have hfile := inv.final_file
  have hlines : ∀ (f : String → Option (Int × Int)) (p : String),
      countLines (p ++ String.join ((accepted tmp).map (statementOf f))) =
        countLines p + (accepted tmp).length + idNewlines tmp := by
    intro f p
    simp only [countLines_eq, String.data_append, List.count_append, statements_count, idNewlines]
    omega
  refine ⟨appendFile st, e, hfile, ?_, ?_, ?_⟩
  · intro name
    unfold statementOf statement
    split
    · exact ⟨_, (String.append_assoc _ "\x27;" "\n").symm⟩
    · exact ⟨_, (String.append_assoc _ "\x27;" "\n").symm⟩
  · rw [hfile, hlines]
  · intro loadImage2
    obtain ⟨st2, e2, inv2, -, -⟩ := generateSQL_run loadImage2 tmp (appendFile st).outputFile
    have hfile2 := inv2.final_file
    refine ⟨appendFile st2, e2, ?_, ?_⟩
    · rw [hfile2, hfile]
    · rw [hfile2, hlines, hfile, hlines]
      push_cast
      ring

/-- C1 (witness): the listing of the end-to-end scenario behind a placeholder. -/
theorem generateSQL_appends_statements_witness :
    ∃ st, generateSQL (fun _ => none) [".gitkeep", "1.jpg", "2.png"] "" = .ok (st, 3) ∧
      countLines st.outputFile = countLines "" + 2 + 0 := by
  obtain ⟨st, h1, _, _, h4, _⟩ :=
    generateSQL_appends_statements (fun _ => none) [".gitkeep", "1.jpg", "2.png"] ""
  exact ⟨st, h1, h4⟩

/-- C1 (counterexample): a listing with one accepted entry whose name contains
a line feed; the run adds two lines to an empty file, not one. -/
theorem newline_in_id_adds_two_lines :
    (accepted ["first", "a\nb.png"]).length = 1 ∧
    ∃ st, generateSQL (fun _ => none) ["first", "a\nb.png"] "" = .ok (st, 2) ∧
      st.outputFile = "UPDATE \"CustomFile\" SET \"metadata\" = \x27\x7b\"width\": -1, \"height\": -1\x7d\x27::jsonb WHERE id = \x27a\nb\x27;\n" ∧
      countLines st.outputFile - countLines "" = 2 :=
  ⟨by decide, _, rfl, by decide, by decide⟩

/-- C2 (amended): `generateSQL` calls `fs.appendFile` exactly `floor(M/200) + 1`
times for `M` accepted entries, the last call being unconditional; the calls
that write at least one statement number `ceil(M/200)`. -/
theorem generateSQL_append_count (loadImage : String → Option (Int × Int))
    (tmp : List String) (c : String) :
    ∃ st, generateSQL loadImage tmp c = .ok (st, tmp.length) ∧
      st.appendLog.length = (accepted tmp).length / 200 + 1 ∧
      (st.appendLog.filter (fun chunk => !chunk.isEmpty)).length =
        ((accepted tmp).length + 199) / 200 := by
  obtain ⟨st, e, inv, -, -⟩ := generateSQL_run loadImage tmp c
  refine ⟨appendFile st, e, ?_, ?_⟩
  · simpa using inv.final_length
  · have h1 := inv.size
    have h2 := inv.buffer_lt
    have h3 : st.appendLog.filter (fun chunk => !chunk.isEmpty) = st.appendLog := by
      rw [List.filter_eq_self]
      intro chunk hc
      have := inv.chunk_len chunk hc
      cases chunk with
      | nil => simp at this
      | cons a l => rfl
    simp only [List.length_map] at h1
    simp only [appendFile, List.filter_append, List.length_append, h3]
    cases hr : st.results with
    | nil =>
      rw [hr] at h1
      simp at h1 ⊢
      omega
    | cons a l =>
      rw [hr] at h1 h2
      simp at h1 h2 ⊢
      omega

/-- C2 (counterexample): on an empty listing there are no accepted entries,
yet one append is performed, where `ceil(0/200)` is zero. -/
theorem empty_listing_appends_once :
    (accepted []).length = 0 ∧
    ∃ st, generateSQL (fun _ => none) [] "" = .ok (st, 0) ∧
      st.appendLog = [[]] ∧ st.appendLog.length ≠ ((accepted []).length + 199) / 200 :=
  ⟨by decide, _, rfl, by decide, by decide⟩

/-- C3: for every listing the buffer `results` never holds more than 200
statements: its length runs `1, .., 200, 0, 1, ..`, being emptied exactly when
it reaches 200.  Every append writes at most 200 statements, every append but
the last writes exactly 200, and the last writes the remainder `M mod 200`. -/
theorem generateSQL_buffer_bounded (loadImage : String → Option (Int × Int))
    (tmp : List String) (c : String) :
    ∃ st, generateSQL loadImage tmp c = .ok (st, tmp.length) ∧
      (∀ n ∈ st.bufferHistory, n ≤ 200) ∧
      st.bufferHistory = expectedHistory (accepted tmp).length ∧
      st.bufferHistory.count 200 = st.appendLog.length - 1 ∧
      st.bufferHistory.count 0 = st.appendLog.length - 1 ∧
      (∀ chunk ∈ st.appendLog, chunk.length ≤ 200) ∧
      (∀ chunk ∈ st.appendLog.dropLast, chunk.length = 200) ∧
      st.appendLog.getLast? = some st.results ∧
      st.results.length = (accepted tmp).length % 200 ∧
      st.results.length < 200 := by
  obtain ⟨st, e, inv, -, -⟩ := generateSQL_run loadImage tmp c
  have h1 := inv.size
  have h2 := inv.buffer_lt
  simp only [List.length_map] at h1
  refine ⟨appendFile st, e, inv.history_le, ?_, ?_, ?_, ?_, ?_, ?_, ?_, ?_⟩
  · simpa [appendFile] using inv.history
  · simpa [appendFile] using inv.flushes
  · simpa [appendFile] using inv.clears
  · intro chunk hc
    simp only [appendFile, List.mem_append, List.mem_singleton] at hc
    rcases hc with hc | hc
    · exact le_of_eq (inv.chunk_len chunk hc)
    · subst hc
      exact le_of_lt h2
  · intro chunk hc
    simp only [appendFile, List.dropLast_concat] at hc
    exact inv.chunk_len chunk hc
  · simp [appendFile]
  · show st.results.length = _
    omega
  · exact h2

/-- C3 (witness): three accepted entries behind the skipped first one. -/
theorem generateSQL_buffer_bounded_witness :
    ∃ st, generateSQL (fun _ => some (4, 3)) ["a", "b", "c", "d"] "" = .ok (st, 4) ∧
      st.bufferHistory = [1, 2, 3] ∧ st.appendLog.getLast? = some st.results ∧
      st.results.length = 3 := by
  obtain ⟨st, h1, _, h3, _, _, _, _, h8, h9, _⟩ :=
    generateSQL_buffer_bounded (fun _ => some (4, 3)) ["a", "b", "c", "d"] ""
  exact ⟨st, h1, h3, h8, h9⟩

/-- C4: `generateSQL` returns for every listing and every decoder.  An entry
at index `j > 0` with non-empty derived id `id` whose decode fails still gets
its statement, written at its place among the accepted entries, and that
statement carries width -1 and height -1.  A decoder that differs on other
files only leaves that entry's statement unchanged. -/
theorem generateSQL_decode_failure (loadImage : String → Option (Int × Int))
    (tmp : List String) (c : String) :
    ∃ st, generateSQL loadImage tmp c = .ok (st, tmp.length) ∧
      st.outputFile = c ++ String.join st.appendLog.flatten ∧
      (∀ (j : Nat) (name id : String), 0 < j → tmp[j]? = some name →
        deriveId ("tmp/" ++ name) = .ok (some id) → id ≠ "" →
        loadImage ("tmp/" ++ name) = none →
        st.appendLog.flatten[(accepted (tmp.take j)).length]? = some
          ("UPDATE \"CustomFile\" SET \"metadata\" = \x27\x7b\"width\": -1, \"height\": -1\x7d\x27::jsonb WHERE id = \x27"
            ++ id ++ "\x27;\n")) ∧
      ∀ loadImage2 : String → Option (Int × Int),
        ∃ st2, generateSQL loadImage2 tmp c = .ok (st2, tmp.length) ∧
          st2.appendLog.flatten.length = st.appendLog.flatten.length ∧
          ∀ (j : Nat) (name id : String), 0 < j → tmp[j]? = some name →
            deriveId ("tmp/" ++ name) = .ok (some id) → id ≠ "" →
            loadImage2 ("tmp/" ++ name) = loadImage ("tmp/" ++ name) →
            st2.appendLog.flatten[(accepted (tmp.take j)).length]? =
              st.appendLog.flatten[(accepted (tmp.take j)).length]? := by
  obtain ⟨st, e, inv, -, -⟩ := generateSQL_run loadImage tmp c
  refine ⟨appendFile st, e, ?_, ?_, ?_⟩
  · rw [inv.final_file, inv.final_flatten]
  · intro j name id hj h hd hid hfail
    have hid2 : derivedId name ≠ "" := by rw [derivedId_of_deriveId hd]; exact hid
    rw [written_at inv j name hj h hid2]
    simp only [statementOf, hfail, derivedId_of_deriveId hd]
    rfl
  · intro loadImage2
    obtain ⟨st2, e2, inv2, -, -⟩ := generateSQL_run loadImage2 tmp c
    refine ⟨appendFile st2, e2, ?_, ?_⟩
    · rw [inv2.final_flatten, inv.final_flatten]
      simp
    · intro j name id hj h hd hid hsame
      have hid2 : derivedId name ≠ "" := by rw [derivedId_of_deriveId hd]; exact hid
      rw [written_at inv j name hj h hid2, written_at inv2 j name hj h hid2]
      simp only [statementOf, hsame]

/-- C4 (witness): the end-to-end scenario; `2.png` fails to decode. -/
theorem generateSQL_decode_failure_witness :
    ∃ st, generateSQL (fun p => if p = "tmp/1.jpg" then some (100, 50) else none)
        [".gitkeep", "1.jpg", "2.png"] "" = .ok (st, 3) ∧
      st.appendLog.flatten[1]? = some
        "UPDATE \"CustomFile\" SET \"metadata\" = \x27\x7b\"width\": -1, \"height\": -1\x7d\x27::jsonb WHERE id = \x272\x27;\n" := by
  obtain ⟨st, h1, _, h3, _⟩ := generateSQL_decode_failure
    (fun p => if p = "tmp/1.jpg" then some (100, 50) else none) [".gitkeep", "1.jpg", "2.png"] ""
  exact ⟨st, h1, h3 2 "2.png" "2" (by decide) rfl rfl (by decide) rfl⟩

/-- C5: an entry at index `j > 0` with non-empty derived id `id` whose decode
succeeds with width `w` and height `h` gets, at its place among the accepted
entries, exactly the line
`UPDATE "CustomFile" SET "metadata" = '{"width": w, "height": h}'::jsonb WHERE id = 'id';`
followed by one line feed, with the decoder's own `w` and `h` in decimal. -/
theorem generateSQL_decoded_statement (loadImage : String → Option (Int × Int))
    (tmp : List String) (c : String) :
    ∃ st, generateSQL loadImage tmp c = .ok (st, tmp.length) ∧
      st.outputFile = c ++ String.join st.appendLog.flatten ∧
      ∀ (j : Nat) (name id : String) (w h : Int), 0 < j → tmp[j]? = some name →
        deriveId ("tmp/" ++ name) = .ok (some id) → id ≠ "" →
        loadImage ("tmp/" ++ name) = some (w, h) →
        st.appendLog.flatten[(accepted (tmp.take j)).length]? = some
          ("UPDATE \"CustomFile\" SET \"metadata\" = \x27\x7b\"width\": " ++ toString w ++
            ", \"height\": " ++ toString h ++ "\x7d\x27::jsonb WHERE id = \x27" ++ id ++
            "\x27;" ++ "\n") := by
  obtain ⟨st, e, inv, -, -⟩ := generateSQL_run loadImage tmp c
  refine ⟨appendFile st, e, ?_, ?_⟩
  · rw [inv.final_file, inv.final_flatten]
  · intro j name id w h hj hn hd hid hok
    have hid2 : derivedId name ≠ "" := by rw [derivedId_of_deriveId hd]; exact hid
    rw [written_at inv j name hj hn hid2]
    simp only [statementOf, hok, derivedId_of_deriveId hd, statement, render]
    rw [String.append_assoc _ "\x27;" "\n"]
    rfl

/-- C5 (witness): the end-to-end scenario; `1.jpg` decodes as 100 by 50. -/
theorem generateSQL_decoded_statement_witness :
    ∃ st, generateSQL (fun p => if p = "tmp/1.jpg" then some (100, 50) else none)
        [".gitkeep", "1.jpg", "2.png"] "" = .ok (st, 3) ∧
      st.appendLog.flatten[0]? = some
        "UPDATE \"CustomFile\" SET \"metadata\" = \x27\x7b\"width\": 100, \"height\": 50\x7d\x27::jsonb WHERE id = \x271\x27;\n" := by
  obtain ⟨st, h1, _, h3⟩ := generateSQL_decoded_statement
    (fun p => if p = "tmp/1.jpg" then some (100, 50) else none) [".gitkeep", "1.jpg", "2.png"] ""
  exact ⟨st, h1, h3 1 "1.jpg" "1" 100 50 (by decide) rfl rfl (by decide) rfl⟩

/-- C6: if record `k` is the first whose download fails, with error `e`, then
`download` issues exactly the calls for records `0..k`, once each and in
manifest order, each to `tmp/<id>.<fileExtension>`, and throws `e`; `main`
then rejects with `e` without running `generateSQL`, and the output file keeps
its prior content. -/
theorem download_first_failure (bucket : Nat → DownloadCall → Option String)
    (data : List FileInfo) (k : Nat) (file : FileInfo) (e : String)
    (hk : data[k]? = some file)
    (hfail : bucket k (callOf file) = some e)
    (hok : ∀ (j : Nat) (f : FileInfo), j < k → data[j]? = some f →
      bucket j (callOf f) = none) :
    download bucket data =
      ⟨(data.take (k + 1)).map
        (fun f => ⟨f.gcloudPath, "tmp/" ++ f.id ++ "." ++ f.fileExtension⟩), some e⟩ ∧
    ∀ (readdir : List DownloadCall → List String)
      (loadImage : String → Option (Int × Int)) (c : String),
      main (.ok data) bucket readdir loadImage c =
        ⟨(data.take (k + 1)).map
          (fun f => ⟨f.gcloudPath, "tmp/" ++ f.id ++ "." ++ f.fileExtension⟩),
          none, c, none, some e⟩ := by
  have h : download bucket data = ⟨(data.take (k + 1)).map callOf, some e⟩ := by
    have := downloadFrom_first_failure bucket data [] k file e hk
      (by simpa using hfail) (by simpa using hok)
    simpa [download] using this
  refine ⟨h, ?_⟩
  intro readdir loadImage c
  simp only [main, h]
  rfl

/-- C6 (witness): the second of three downloads fails. -/
theorem download_first_failure_witness :
    download (fun n _ => if n = 1 then some "boom" else none)
        [⟨"1", "images/1.jpg", "jpg"⟩, ⟨"2", "images/2.png", "png"⟩, ⟨"3", "images/3.png", "png"⟩] =
      ⟨[⟨"images/1.jpg", "tmp/1.jpg"⟩, ⟨"images/2.png", "tmp/2.png"⟩], some "boom"⟩ ∧
    main (.ok [⟨"1", "images/1.jpg", "jpg"⟩, ⟨"2", "images/2.png", "png"⟩,
          ⟨"3", "images/3.png", "png"⟩])
        (fun n _ => if n = 1 then some "boom" else none) (fun _ => [".gitkeep", "1.jpg"])
        (fun _ => none) "old\n" =
      ⟨[⟨"images/1.jpg", "tmp/1.jpg"⟩, ⟨"images/2.png", "tmp/2.png"⟩],
        none, "old\n", none, some "boom"⟩ :=
  have h := download_first_failure (fun n _ => if n = 1 then some "boom" else none)
    [⟨"1", "images/1.jpg", "jpg"⟩, ⟨"2", "images/2.png", "png"⟩, ⟨"3", "images/3.png", "png"⟩]
    1 ⟨"2", "images/2.png", "png"⟩ "boom" rfl rfl
    (by
      intro j f hj hf
      have : j = 0 := by omega
      subst this
      rfl)
  ⟨h.1, h.2 (fun _ => [".gitkeep", "1.jpg"]) (fun _ => none) "old\n"⟩

/-- C8 (the code at the failing input): with an empty manifest, an empty
staging directory and an empty output file, `main` performs no download,
`generateSQL` appends the empty string once and the output file stays empty,
but the Verifier reports 0 total lines against an expected -1, where the claim
asks for two equal numbers. -/
theorem main_empty_run (bucket : Nat → DownloadCall → Option String)
    (readdir : List DownloadCall → List String) (loadImage : String → Option (Int × Int))
    (hdir : readdir [] = []) :
    main (.ok []) bucket readdir loadImage "" =
      ⟨[], some ⟨[], "", [[]], [], [], []⟩, "", some ⟨0, -1⟩, none⟩ ∧
    Report.text ⟨0, -1⟩ = "Total lines: 0. Should be: -1." := by
  refine ⟨?_, by decide⟩
  have hg : generateSQL loadImage (readdir (download bucket []).issued) "" =
      .ok (⟨[], "", [[]], [], [], []⟩, 0) := by
    show generateSQL loadImage (readdir []) "" = _
    rw [hdir]
    rfl
  rw [main_report [] bucket readdir loadImage "" _ _ rfl hg]
  rfl

/-- C8 (witness): a bucket and a decoder that are never consulted. -/
theorem main_empty_run_witness :
    main (.ok []) (fun _ _ => some "unreachable") (fun issued => issued.map (fun d => d.destination))
        (fun _ => some (1, 1)) "" =
      ⟨[], some ⟨[], "", [[]], [], [], []⟩, "", some ⟨0, -1⟩, none⟩ ∧
    Report.text ⟨0, -1⟩ = "Total lines: 0. Should be: -1." :=
  main_empty_run (fun _ _ => some "unreachable") (fun issued => issued.map (fun d => d.destination))
    (fun _ => some (1, 1)) rfl

/-- C7 (amended): an entry other than the first whose derived id is empty is
reported as invalid and produces no statement: the appended statements and the
output file are those of the listing without it.  It does count toward the
expected total: `generateSQL` returns the full listing length, one more than
without the entry, and the Verifier prints that length minus one. -/
theorem generateSQL_empty_id_entry (loadImage : String → Option (Int × Int))
    (before after : List String) (name c : String)
    (hfirst : before ≠ [])
    (hid : deriveId ("tmp/" ++ name) = .ok (some "")) :
    ∃ st st', generateSQL loadImage (before ++ name :: after) c =
        .ok (st, (before ++ after).length + 1) ∧
      generateSQL loadImage (before ++ after) c = .ok (st', (before ++ after).length) ∧
      st.outputFile = st'.outputFile ∧
      st.appendLog.flatten = st'.appendLog.flatten ∧
      st.appendLog.length = st'.appendLog.length ∧
      "tmp/" ++ name ∈ st.invalidLog ∧
      ∀ (data : List FileInfo) (bucket : Nat → DownloadCall → Option String)
        (readdir : List DownloadCall → List String),
        (download bucket data).error = none →
        readdir (download bucket data).issued = before ++ name :: after →
        (main (.ok data) bucket readdir loadImage c).report =
          some ⟨(countLines st.outputFile : Int) - 1, ((before ++ after).length : Int)⟩ := by
  have hid2 : derivedId name = "" := derivedId_of_deriveId hid
  obtain ⟨st, e, inv, -, hinv⟩ := generateSQL_run loadImage (before ++ name :: after) c
  obtain ⟨st', e', inv', -, -⟩ := generateSQL_run loadImage (before ++ after) c
  rw [accepted_remove before after name hfirst hid2] at inv
  have hlen : (before ++ name :: after).length = (before ++ after).length + 1 := by
    simp
    omega
  rw [hlen] at e
  refine ⟨appendFile st, appendFile st', e, e', ?_, ?_, ?_, ?_, ?_⟩
  · rw [inv.final_file, inv'.final_file]
  · rw [inv.final_flatten, inv'.final_flatten]
  · rw [inv.final_length, inv'.final_length]
  · show "tmp/" ++ name ∈ st.invalidLog
    rw [hinv]
    cases before with
    | nil => exact absurd rfl hfirst
    | cons b bs =>
      simp only [List.cons_append, List.drop_succ_cons, List.drop_zero, List.mem_map,
        List.mem_filter, List.mem_append, List.mem_cons]
      exact ⟨name, ⟨Or.inr (Or.inl rfl), by simp [hid2]⟩, rfl⟩
  · intro data bucket readdir hd hdir
    rw [← hdir] at e
    rw [main_report data bucket readdir loadImage c _ _ hd e]
    simp

/-- C7 (witness): a dot-file between two images. -/
theorem generateSQL_empty_id_entry_witness :
    ∃ st st', generateSQL (fun _ => none) (["a.png"] ++ ".hidden" :: ["b.png"]) "" =
        .ok (st, 3) ∧
      generateSQL (fun _ => none) (["a.png"] ++ ["b.png"]) "" = .ok (st', 2) ∧
      st.outputFile = st'.outputFile ∧ "tmp/" ++ ".hidden" ∈ st.invalidLog := by
  obtain ⟨st, st', h1, h2, h3, _, _, h6, _⟩ := generateSQL_empty_id_entry (fun _ => none)
    ["a.png"] ["b.png"] ".hidden" "" (by decide) rfl
  exact ⟨st, st', h1, h2, h3, h6⟩

/-- C7 (counterexample): a dot-file has an empty derived id, yet the listing
that contains it has expected total 3 (printed as 2) where the listing without
it has expected total 2 (printed as 1). -/
theorem dot_file_counts_toward_total :
    deriveId "tmp/.hidden" = .ok (some "") ∧
    (∃ st, generateSQL (fun _ => none) ["a.png", ".hidden", "b.png"] "" = .ok (st, 3)) ∧
    (∃ st, generateSQL (fun _ => none) ["a.png", "b.png"] "" = .ok (st, 2)) ∧
    (main (.ok []) (fun _ _ => none) (fun _ => ["a.png", ".hidden", "b.png"])
      (fun _ => none) "").report = some ⟨1, 2⟩ ∧
    (main (.ok []) (fun _ _ => none) (fun _ => ["a.png", "b.png"])
      (fun _ => none) "").report = some ⟨1, 1⟩ :=
  ⟨rfl, ⟨_, rfl⟩, ⟨_, rfl⟩, by decide, by decide⟩

/-- C9 (amended): for every manifest record whose id contains neither `/` nor
`.`, and any fileExtension, the id derived from the destination path
`tmp/<id>.<fileExtension>` that `download` wrote is the record's id. -/
theorem deriveId_destinationDest (file : FileInfo)
    (hslash : '/' ∉ file.id.data) (hdot : '.' ∉ file.id.data) :
    destinationDest file = "tmp/" ++ file.id ++ "." ++ file.fileExtension ∧
    deriveId (destinationDest file) = .ok (some file.id) := by
  refine ⟨rfl, ?_⟩
  have hpath : destinationDest file = "tmp/" ++ (file.id ++ ("." ++ file.fileExtension)) := by
    simp [destinationDest, String.append_assoc]
  have hdata : (file.id ++ ("." ++ file.fileExtension)).data =
      file.id.data ++ '.' :: file.fileExtension.data := rfl
  have h1 : ∀ a ∈ file.id.data, (a != '/') = true := by
    intro a ha
    simp only [bne_iff_ne, ne_eq]
    rintro rfl
    exact hslash ha
  have h2 : ∀ a ∈ file.id.data, (a != '.') = true := by
    intro a ha
    simp only [bne_iff_ne, ne_eq]
    rintro rfl
    exact hdot ha
  rw [hpath, deriveId_entry, hdata, List.takeWhile_append_of_pos h1]
  have h3 : List.takeWhile (fun c => c != '/') ('.' :: file.fileExtension.data) =
      '.' :: List.takeWhile (fun c => c != '/') file.fileExtension.data := by
    rw [List.takeWhile_cons]
    rfl
  rw [h3, List.takeWhile_append_of_pos h2]
  simp [List.takeWhile_cons]

/-- C9 (witness): the first record of the end-to-end scenario. -/
theorem deriveId_destinationDest_witness :
    destinationDest ⟨"1", "images/1.jpg", "jpg"⟩ = "tmp/" ++ "1" ++ "." ++ "jpg" ∧
    deriveId (destinationDest ⟨"1", "images/1.jpg", "jpg"⟩) = .ok (some "1") :=
  deriveId_destinationDest ⟨"1", "images/1.jpg", "jpg"⟩ (by decide) (by decide)

/-- C9 (counterexample): a non-empty id with a dot, and one with a slash, are
not recovered from the destination path. -/
theorem dotted_id_not_recovered :
    destinationDest ⟨"a.b", "images/a.b.png", "png"⟩ = "tmp/a.b.png" ∧
    deriveId (destinationDest ⟨"a.b", "images/a.b.png", "png"⟩) = .ok (some "a") ∧
    deriveId (destinationDest ⟨"a/b", "images/a/b.png", "png"⟩) = .ok (some "a") ∧
    "a" ≠ "a.b" ∧ "a" ≠ "a/b" ∧ "a.b" ≠ "" ∧ "a/b" ≠ "" :=
  ⟨by decide, rfl, rfl, by decide, by decide, by decide, by decide⟩

/-- C10: on a listing `first :: rest`, `generateSQL` calls the decoder exactly
on the entries of `rest`, in order, and writes statements for accepted entries
of `rest` only, so at most `rest.length` of them.  The result is the same for
any other first entry and for any decoder that agrees on the entries of
`rest`; a listing of exactly one entry yields no statement. -/
theorem generateSQL_skips_first (loadImage : String → Option (Int × Int))
    (first : String) (rest : List String) (c : String) :
    ∃ st, generateSQL loadImage (first :: rest) c = .ok (st, rest.length + 1) ∧
      st.decodeLog = rest.map (fun file => "tmp/" ++ file) ∧
      st.appendLog.flatten =
        (rest.filter (fun name => derivedId name ≠ "")).map (statementOf loadImage) ∧
      st.appendLog.flatten.length ≤ (first :: rest).length - 1 ∧
      (∀ first2 : String, generateSQL loadImage (first2 :: rest) c = .ok (st, rest.length + 1)) ∧
      (∀ loadImage2 : String → Option (Int × Int),
        (∀ name ∈ rest, loadImage2 ("tmp/" ++ name) = loadImage ("tmp/" ++ name)) →
        generateSQL loadImage2 (first :: rest) c = .ok (st, rest.length + 1)) ∧
      generateSQL loadImage [first] c = .ok (⟨[], c, [[]], [], [], []⟩, 1) := by
  obtain ⟨st, e0, inv, hdec, -⟩ := generateSQL_run loadImage (first :: rest) c
  have e : generateSQL loadImage (first :: rest) c = .ok (appendFile st, rest.length + 1) := e0
  have hflat := inv.final_flatten
  simp only [accepted, List.drop_succ_cons, List.drop_zero] at hflat
  refine ⟨appendFile st, e, ?_, hflat, ?_, ?_, ?_, ?_⟩
  · simpa [appendFile] using hdec
  · rw [hflat, List.length_map]
    exact le_trans (List.length_filter_le _ _) (by simp)
  · intro first2
    rw [← e]
    rfl
  · intro loadImage2 h
    rw [← e]
    simp only [generateSQL, List.map_cons, List.drop_succ_cons, List.drop_zero]
    rw [loop_congr loadImage loadImage2 _ _ (by simpa using h)]
  · simp [generateSQL, loop, initialState, appendFile, String.join]

/-- C10 (witness): a decoder that differs on the first entry only. -/
theorem generateSQL_skips_first_witness :
    ∃ st, generateSQL (fun _ => none) ("x.png" :: ["1.jpg"]) "" = .ok (st, 2) ∧
      st.decodeLog = ["tmp/1.jpg"] ∧
      generateSQL (fun p => if p = "tmp/x.png" then some (3, 4) else none)
        ("x.png" :: ["1.jpg"]) "" = .ok (st, 2) := by
  obtain ⟨st, h1, h2, _, _, _, h6, _⟩ :=
    generateSQL_skips_first (fun _ => none) "x.png" ["1.jpg"] ""
  refine ⟨st, h1, h2, h6 _ ?_⟩
  intro name hn
  have : name = "1.jpg" := by simpa using hn
  subst this
  rfl

end GcpFileProcessing
